import Mathlib

/-!
Verification of the pitch-tracking core of `src/tuner.py`.

The Python source is shallowly embedded below: audio samples are exact
rationals, numpy array operations become list operations with the same
semantics, and the two kinds of state of the program (the streaming
bandpass filter state `self.zi` and the per-session history and debounce
attributes of `LiveTuner`) become explicit state records threaded through
a step function `pollBlock` that mirrors `LiveTuner.poll` line by line.

Library calls are modelled by their documented semantics:
`scipy.signal.sosfilt` is the direct-form-II-transposed cascade recurrence
over second-order sections, `np.correlate(x, x, mode=full)` restricted to
the non-negative-lag half is `autocorr`, `np.diff` is `diffList`,
`np.where(d > 0)[0][0]` is `firstPosIdx` (whose empty case is the
IndexError the Python raises), and `np.argmax` is `argmax` (first maximal
index).  The Butterworth design `butter(...)` and the steady-state seed
`sosfilt_zi(sos)` only produce constants for this program, so the
embedding is parametrised by the section list `sos` and the seed `zi0`.
The bare `except` around the stateful `sosfilt` call is modelled as a
typed branch selected by a Boolean `fOk` (whether the stateful filtering
step succeeded).
-/

namespace Tuner

/-- Reference table `STRINGS` of tuner.py: guitar string name and target
frequency in Hz (82.41, 110.00, 146.83, 196.00, 246.94, 329.63). -/
def STRINGS : List (String × ℚ) :=
  [("Low E", 8241/100), ("A", 110), ("D", 14683/100), ("G", 196),
   ("B", 24694/100), ("High E", 32963/100)]

/-- Embedding of `cents_diff(f_meas, f_target)`:
`(1200 * np.log2(f_meas / f_target)) / 10`. -/
noncomputable def cents_diff (f_meas f_target : ℝ) : ℝ :=
  1200 * Real.logb 2 (f_meas / f_target) / 10

/-- Helper for `freq_to_string`: scan a list keeping the entry whose target
frequency has the smallest absolute difference to `freq`, replacing the
current best only on a strictly smaller difference.  This is exactly the
semantics of Python `min(diffs, key=diffs.get)` over the insertion-ordered
dict built in `freq_to_string` (first key wins on ties). -/
def minByAbsDiff (freq : ℚ) : (String × ℚ) → List (String × ℚ) → String × ℚ
  | best, [] => best
  | best, p :: rest =>
      minByAbsDiff freq (if |freq - p.2| < |freq - best.2| then p else best) rest

/-- Embedding of `freq_to_string(freq)`: nearest reference note by linear
frequency difference, first entry of `STRINGS` winning ties. -/
def freq_to_string (freq : ℚ) : String × ℚ :=
  match STRINGS with
  | [] => ("", 0)
  | p :: rest => minByAbsDiff freq p rest

/-- Embedding of `np.mean` on a rational list. -/
def mean (l : List ℚ) : ℚ := l.sum / (l.length : ℚ)

/-- Centering step of `detect_frequency_autocorr`: `x = x - np.mean(x)`. -/
def centered (x : List ℚ) : List ℚ := x.map (fun v => v - mean x)

/-- Non-negative-lag autocorrelation: `np.correlate(x, x, mode=full)` kept
from its centre onwards, so entry `k` is the sum of `x i * x (i+k)`. -/
def autocorr (x : List ℚ) : List ℚ :=
  (List.range x.length).map
    (fun k => (List.zipWith (fun a b => a * b) x (x.drop k)).sum)

/-- Embedding of `np.diff`: consecutive differences. -/
def diffList (l : List ℚ) : List ℚ := List.zipWith (fun a b => a - b) l.tail l

/-- Embedding of `np.where(d > 0)[0][0]` minus the final indexing: the index
of the first strictly positive entry, `none` when there is none (the case
in which the Python indexing `[0]` raises `IndexError`). -/
def firstPosIdx : List ℚ → Option ℕ
  | [] => none
  | v :: rest => if 0 < v then some 0 else (firstPosIdx rest).map (fun i => i + 1)

/-- Accumulator loop for `argmax`: current index, best index, best value. -/
def argmaxAux : List ℚ → ℕ → ℕ → ℚ → ℕ
  | [], _i, bi, _bv => bi
  | v :: rest, i, bi, bv =>
      if bv < v then argmaxAux rest (i + 1) i v else argmaxAux rest (i + 1) bi bv

/-- Embedding of `np.argmax`: index of the first occurrence of the maximal
entry (0 on the empty list, which never arises in the program). -/
def argmax (l : List ℚ) : ℕ := argmaxAux l 0 0 (l.headD 0)

/-- Result of `detect_frequency_autocorr`: either the raised `IndexError`
(when `np.where(d > 0)[0]` is empty) or the returned rational. -/
inductive DetectOut where
  | err : DetectOut
  | val : ℚ → DetectOut
deriving DecidableEq

/-- Embedding of `detect_frequency_autocorr(x, fs)` from tuner.py:
centre the block, autocorrelate, find the first lag with positive first
difference (raising when there is none), take the first maximum at or
after it as the period `peak`, and return `fs / peak` (0 when `peak == 0`). -/
def detect_frequency_autocorr (x : List ℚ) (fs : ℚ) : DetectOut :=
  match firstPosIdx (diffList (autocorr (centered x))) with
  | none => DetectOut.err
  | some start =>
      if argmax ((autocorr (centered x)).drop start) + start = 0 then DetectOut.val 0
      else DetectOut.val (fs / ((argmax ((autocorr (centered x)).drop start) + start : ℕ) : ℚ))

/-- One second-order section of the cascaded filter, row
`[b0, b1, b2, 1, a1, a2]` of the `butter(..., output="sos")` design
(Butterworth sections are normalised, `a0 = 1`). -/
structure Sos where
  b0 : ℚ
  b1 : ℚ
  b2 : ℚ
  a1 : ℚ
  a2 : ℚ
deriving DecidableEq

/-- Continuity state of the cascade: one delay pair per section, the shape
of `sosfilt_zi(sos)`. -/
abbrev Zi := List (ℚ × ℚ)

/-- Elementwise scaling of a continuity state by a scalar, the numpy
broadcast in `self.zi * arr[0]` and `sosfilt_zi(self.sos) * filtered[-1]`. -/
def ziScale (zi : Zi) (c : ℚ) : Zi := zi.map (fun p => (p.1 * c, p.2 * c))

/-- All-zero continuity state, the implicit initial condition of
`sosfilt(sos, arr)` when no `zi` argument is given. -/
def zeroZi (sos : List Sos) : Zi := sos.map (fun _ => ((0 : ℚ), (0 : ℚ)))

/-- Direct-form-II-transposed recurrence of one section over a block:
`y = b0*x + z1`, `z1 := b1*x - a1*y + z2`, `z2 := b2*x - a2*y`. -/
def sosSectionFilt (sec : Sos) : (ℚ × ℚ) → List ℚ → List ℚ × (ℚ × ℚ)
  | z, [] => ([], z)
  | z, x :: xs =>
      let y := sec.b0 * x + z.1
      let z1 := sec.b1 * x - sec.a1 * y + z.2
      let z2 := sec.b2 * x - sec.a2 * y
      let r := sosSectionFilt sec (z1, z2) xs
      (y :: r.1, r.2)

/-- Embedding of `scipy.signal.sosfilt(sos, x, zi)`: feed the block through
the sections in order, each consuming and returning its own delay pair. -/
def sosfilt : List Sos → Zi → List ℚ → List ℚ × Zi
  | [], _zi, x => (x, [])
  | sec :: rest, zi, x =>
      let r1 := sosSectionFilt sec (zi.headD (0, 0)) x
      let r2 := sosfilt rest zi.tail r1.1
      (r2.1, r1.2 :: r2.2)

/-- Embedding of lines 173-178 of tuner.py.  `fOk` selects the branch of the
`try`/`except`: on success the stateful call
`sosfilt(self.sos, arr, zi=self.zi * arr[0])` runs; on failure the code
falls back to the stateless `sosfilt(self.sos, arr)` and re-seeds
`zf = sosfilt_zi(self.sos) * filtered[-1]`. -/
def filterStep (sos : List Sos) (zi0 : Zi) (fOk : Bool) (zi : Zi) (arr : List ℚ) :
    List ℚ × Zi :=
  if fOk then sosfilt sos (ziScale zi (arr.headD 0)) arr
  else
    ((sosfilt sos (zeroZi sos) arr).1,
      ziScale zi0 (((sosfilt sos (zeroZi sos) arr).1).getLastD 0))

/-- Silence threshold of the amplitude gate (`0.02` in tuner.py). -/
def silence_threshold : ℚ := 1 / 50

/-- Stability threshold `note_confirm_threshold` of tuner.py. -/
def note_confirm_threshold : ℕ := 3

/-- Embedding of `np.max(np.abs(arr))` for a (nonempty) block. -/
def peakAbs (l : List ℚ) : ℚ := (l.map (fun v => |v|)).foldr max 0

/-- Normalisation of lines 170-171: `arr = arr / peak; arr *= 2.0`. -/
def normalizeBlock (l : List ℚ) : List ℚ := l.map (fun v => v / peakAbs l * 2)

/-- Embedding of the frequency smoothing of lines 196-205: on a positive
detection append it, keep only strictly positive entries, pop the oldest
once the length exceeds 5, and return the mean; on a non-positive
detection leave the history alone and return 0. -/
def freqTrackerUpdate (hist : List ℚ) (freq : ℚ) : List ℚ × ℚ :=
  if 0 < freq then
    let h1 := (hist ++ [freq]).filter (fun f => decide (0 < f))
    let h2 := if 5 < h1.length then h1.tail else h1
    (h2, mean h2)
  else (hist, 0)

/-- Debounce state of `LiveTuner`: `self.last_note` and `self.note_counter`. -/
structure GateState where
  last_note : Option String
  note_counter : ℕ
deriving DecidableEq

/-- Embedding of the stability check of lines 209-216: increment the counter
when the candidate matches the tracked note, otherwise restart the count at
1 for the new candidate; the block is displayed exactly when the counter
has reached `note_confirm_threshold`. -/
def gateConfirm (s : GateState) (cand : String) : GateState × Bool :=
  let s2 : GateState :=
    if some cand = s.last_note
    then { last_note := s.last_note, note_counter := s.note_counter + 1 }
    else { last_note := some cand, note_counter := 1 }
  (s2, decide (note_confirm_threshold ≤ s2.note_counter))

/-- Fold of `gateConfirm` over a candidate sequence, collecting the emitted
booleans. -/
def runGate : GateState → List String → GateState × List Bool
  | g, [] => (g, [])
  | g, c :: cs =>
      let r := gateConfirm g c
      let rest := runGate r.1 cs
      (rest.1, r.2 :: rest.2)

/-- Post-detection stage of `LiveTuner.poll` (lines 196-221): smooth the
detected frequency, resolve the nearest note, run the stability check, and
emit the `(note, smoothed frequency)` reading when it confirms. -/
def trackResolveGate (hist : List ℚ) (g : GateState) (freq : ℚ) :
    List ℚ × GateState × Option (String × ℚ) :=
  let tu := freqTrackerUpdate hist freq
  let ns := freq_to_string tu.2
  let gc := gateConfirm g ns.1
  (tu.1, gc.1, if gc.2 then some (ns.1, tu.2) else none)

/-- Per-session state of `LiveTuner`: filter continuity state, frequency
history, and debounce attributes. -/
structure TunerState where
  zi : Zi
  freq_history : List ℚ
  last_note : Option String
  note_counter : ℕ
deriving DecidableEq

/-- Outcome of processing one block: `raised` when the uncaught
`IndexError` of `detect_frequency_autocorr` escapes `poll`, otherwise the
updated state and the optional emitted reading. -/
inductive PollOut where
  | raised : PollOut
  | done : TunerState → Option (String × ℚ) → PollOut
deriving DecidableEq

/-- Stage of `poll` downstream of the filter: `self.zi = zf`, then pitch
detection and the post-detection stage. -/
def afterFilter (fs : ℚ) (s : TunerState) (fz : List ℚ × Zi) : PollOut :=
  match detect_frequency_autocorr fz.1 fs with
  | DetectOut.err => PollOut.raised
  | DetectOut.val freq =>
      let r := trackResolveGate s.freq_history ⟨s.last_note, s.note_counter⟩ freq
      PollOut.done ⟨fz.2, r.1, r.2.1.last_note, r.2.1.note_counter⟩ r.2.2

/-- Embedding of the body of `LiveTuner.poll` on one dequeued block
(lines 162-221): amplitude gate, normalisation, stateful filtering with the
fallback branch, and the downstream stage.  Display-only work (spectrum
plot, gauge) is omitted as a pure consumer of the emitted reading. -/
def pollBlock (sos : List Sos) (zi0 : Zi) (fOk : Bool) (fs : ℚ)
    (s : TunerState) (block : List ℚ) : PollOut :=
  if peakAbs block < silence_threshold then PollOut.done s none
  else afterFilter fs s (filterStep sos zi0 fOk s.zi (normalizeBlock block))

/-- Fold of `pollBlock` over a block sequence, collecting the emitted
readings; an escaped exception stops the polling loop (the rescheduling
call is never reached). -/
def runBlocks (sos : List Sos) (zi0 : Zi) (fOk : Bool) (fs : ℚ) :
    TunerState → List (List ℚ) → TunerState × List (Option (String × ℚ))
  | s, [] => (s, [])
  | s, b :: bs =>
      match pollBlock sos zi0 fOk fs s b with
      | PollOut.raised => (s, [])
      | PollOut.done s2 r =>
          let rest := runBlocks sos zi0 fOk fs s2 bs
          (rest.1, r :: rest.2)

/-- State of a freshly constructed `LiveTuner` (`__init__`):
`self.zi = sosfilt_zi(self.sos)`, empty history, `last_note = None`,
`note_counter = 0`. -/
def initState (zi0 : Zi) : TunerState := ⟨zi0, [], none, 0⟩

/-- Embedding of `LiveTuner.stop` (lines 143-155), restricted to the
per-session engine state: it re-seeds `self.zi = sosfilt_zi(self.sos)` and
clears `self.freq_history`, and touches nothing else. -/
def stopSession (zi0 : Zi) (s : TunerState) : TunerState :=
  ⟨zi0, [], s.last_note, s.note_counter⟩

/-- Embedding of `LiveTuner.start`: it only opens the audio stream and
leaves every per-session engine attribute unchanged. -/
def startSession (s : TunerState) : TunerState := s

/-- A stop/start boundary: `stop()` followed by `start()`. -/
def restart (zi0 : Zi) (s : TunerState) : TunerState :=
  startSession (stopSession zi0 s)

/-- Deviation actually displayed by `poll` (line 218):
`cents_diff(freq_smooth, target) if freq_smooth > 0 else 0`. -/
noncomputable def displayDiff (freq_smooth target : ℚ) : ℝ :=
  if 0 < freq_smooth then cents_diff (freq_smooth : ℝ) (target : ℝ) else 0

/-!
Shared evaluation lemmas.  The concrete test signal used throughout is the
block `[1, 0, 1, 0]`, processed with a single pass-through section
`b = [1, 0, 0]`, `a = [1, 0, 0]` and the zero steady-state seed, for which
every stage of the pipeline is computed in closed form: the block
normalises to `[2, 0, 2, 0]`, the autocorrelation peak sits at lag 2, and
the detected pitch is 22050 Hz, which resolves to the note High E.
-/

/-- A tracker fed a none detection (encoded 0) keeps its history and
returns 0 (the else branch of line 197). -/
theorem freqTrackerUpdate_none (hist : List ℚ) : freqTrackerUpdate hist 0 = (hist, 0) := by
  simp [freqTrackerUpdate]

/-- Peak absolute value of the test block. -/
theorem peakAbs_eval_block : peakAbs [1, 0, 1, 0] = 1 := by
  norm_num [peakAbs, max_def]

/-- The test block is not gated as silence. -/
theorem peakAbs_block_not_silent : ¬ peakAbs [1, 0, 1, 0] < silence_threshold := by
  rw [peakAbs_eval_block]; norm_num [silence_threshold]

/-- Normalisation of the test block: divide by the peak 1, then boost by 2. -/
theorem normalizeBlock_eval_block : normalizeBlock [1, 0, 1, 0] = [2, 0, 2, 0] := by
  rw [normalizeBlock, peakAbs_eval_block]; norm_num

/-- The pass-through section with zero state returns the block unchanged
and a zero final state. -/
theorem filterStep_eval_identity :
    filterStep [⟨1, 0, 0, 0, 0⟩] [(0, 0)] true [((0 : ℚ), (0 : ℚ))] [2, 0, 2, 0]
      = ([2, 0, 2, 0], [((0 : ℚ), (0 : ℚ))]) := by
  norm_num [filterStep, sosfilt, sosSectionFilt, ziScale]

/-- Pitch detection on the normalised test block: the centred signal is
`[1, -1, 1, -1]`, the autocorrelation `[4, -3, 2, -1]`, the rising edge is
at lag 1, the peak at lag 2, and the estimate `44100 / 2 = 22050`. -/
theorem detect_eval_square : detect_frequency_autocorr [2, 0, 2, 0] 44100 = DetectOut.val 22050 := by
  have ha : argmax ((autocorr (centered [2, 0, 2, 0])).drop 1) = 1 := by
    norm_num [centered, mean, autocorr, argmax, argmaxAux, List.range_succ]
  have ha2 : argmax ((autocorr (centered [2, 0, 2, 0])).tail) = 1 := by
    rw [← List.drop_one]; exact ha
  have h5 : firstPosIdx (diffList (autocorr (centered [2, 0, 2, 0]))) = some 1 := by
    norm_num [centered, mean, autocorr, diffList, firstPosIdx, List.range_succ]
  unfold detect_frequency_autocorr
  rw [h5]
  norm_num [ha, ha2]

/-- Note resolution of 22050 Hz: nearest reference is High E (329.63 Hz). -/
theorem freq_to_string_eval_22050 : freq_to_string 22050 = ("High E", 32963/100) := by
  norm_num [freq_to_string, STRINGS, minByAbsDiff, abs_eq_max_neg, max_def]

/-- Note resolution of 0 Hz: nearest reference is Low E (82.41 Hz). -/
theorem freq_to_string_eval_zero : freq_to_string 0 = ("Low E", 8241/100) := by
  norm_num [freq_to_string, STRINGS, minByAbsDiff, abs_eq_max_neg, max_def]

/-- Note resolution of 110 Hz: exact hit on the reference note A. -/
theorem freq_to_string_eval_110 : freq_to_string 110 = ("A", 110) := by
  norm_num [freq_to_string, STRINGS, minByAbsDiff, abs_eq_max_neg, max_def]

/-- Tracker update from an empty history with detection 22050. -/
theorem freqTrackerUpdate_eval_empty : freqTrackerUpdate [] 22050 = ([22050], 22050) := by
  norm_num [freqTrackerUpdate, mean]

/-- Tracker update from history `[22050]` with detection 22050. -/
theorem freqTrackerUpdate_eval_one :
    freqTrackerUpdate [22050] 22050 = ([22050, 22050], 22050) := by
  norm_num [freqTrackerUpdate, mean]

/-- One poll of the test block from an engine state with empty history and
arbitrary debounce state: the candidate High E is fed to the gate. -/
theorem pollBlock_eval_empty_history (g1 : Option String) (c : ℕ) :
    pollBlock [⟨1, 0, 0, 0, 0⟩] [(0, 0)] true 44100 ⟨[(0, 0)], [], g1, c⟩ [1, 0, 1, 0]
      = PollOut.done ⟨[(0, 0)], [22050], (gateConfirm ⟨g1, c⟩ ("High E")).1.last_note,
          (gateConfirm ⟨g1, c⟩ ("High E")).1.note_counter⟩
          (if (gateConfirm ⟨g1, c⟩ ("High E")).2 then some (("High E"), (22050 : ℚ)) else none) := by
  rw [pollBlock, if_neg peakAbs_block_not_silent, normalizeBlock_eval_block]
  simp only [filterStep_eval_identity, afterFilter, detect_eval_square, trackResolveGate,
    freqTrackerUpdate_eval_empty, freq_to_string_eval_22050]

/-- One poll of the test block from an engine state with history `[22050]`
and arbitrary debounce state. -/
theorem pollBlock_eval_one_history (g1 : Option String) (c : ℕ) :
    pollBlock [⟨1, 0, 0, 0, 0⟩] [(0, 0)] true 44100 ⟨[(0, 0)], [22050], g1, c⟩ [1, 0, 1, 0]
      = PollOut.done ⟨[(0, 0)], [22050, 22050], (gateConfirm ⟨g1, c⟩ ("High E")).1.last_note,
          (gateConfirm ⟨g1, c⟩ ("High E")).1.note_counter⟩
          (if (gateConfirm ⟨g1, c⟩ ("High E")).2 then some (("High E"), (22050 : ℚ)) else none) := by
  rw [pollBlock, if_neg peakAbs_block_not_silent, normalizeBlock_eval_block]
  simp only [filterStep_eval_identity, afterFilter, detect_eval_square, trackResolveGate,
    freqTrackerUpdate_eval_one, freq_to_string_eval_22050]

/-- The stateless fallback filtering of the test block through the
pass-through section returns the normalised block. -/
theorem sosfilt_fallback_eval :
    (sosfilt [⟨1, 0, 0, 0, 0⟩] (zeroZi [⟨1, 0, 0, 0, 0⟩]) (normalizeBlock [1, 0, 1, 0])).1
      = [2, 0, 2, 0] := by
  rw [normalizeBlock_eval_block]
  norm_num [sosfilt, sosSectionFilt, zeroZi]

/-- Post-detection stage on a none detection (encoded 0): the history is
kept, the smoothed frequency is 0, the resolved candidate is Low E, and a
reading (Low E, 0) is emitted exactly when the gate confirms. -/
theorem trackResolveGate_none (hist : List ℚ) (g : GateState) :
    trackResolveGate hist g 0 =
      (hist, (gateConfirm g ("Low E")).1,
        if (gateConfirm g ("Low E")).2 then some (("Low E"), (0 : ℚ)) else none) := by
  simp only [trackResolveGate, freqTrackerUpdate_none, freq_to_string_eval_zero]

/-- Correctness of the linear scan of `minByAbsDiff`: the result improves
on the accumulator, is no worse than any scanned entry, and is either the
accumulator itself or the first strictly better entry of the list. -/
theorem minByAbsDiff_spec (f : ℚ) (l : List (String × ℚ)) (best : String × ℚ) :
    |f - (minByAbsDiff f best l).2| ≤ |f - best.2|
    ∧ (∀ p ∈ l, |f - (minByAbsDiff f best l).2| ≤ |f - p.2|)
    ∧ (minByAbsDiff f best l = best
        ∨ ∃ l1 l2, l = l1 ++ minByAbsDiff f best l :: l2
            ∧ |f - (minByAbsDiff f best l).2| < |f - best.2|
            ∧ ∀ p ∈ l1, |f - (minByAbsDiff f best l).2| < |f - p.2|) := by
  induction l generalizing best with
  | nil => exact ⟨le_refl _, by simp, Or.inl rfl⟩
  | cons p rest ih =>
    by_cases hc : |f - p.2| < |f - best.2|
    · have hred : minByAbsDiff f best (p :: rest) = minByAbsDiff f p rest := by
        simp [minByAbsDiff, hc]
      obtain ⟨ih1, ih2, ih3⟩ := ih p
      rw [hred]
      refine ⟨ih1.trans hc.le, ?_, ?_⟩
      · intro q hq
        rcases List.mem_cons.mp hq with h | h
        · rw [h]; exact ih1
        · exact ih2 q h
      · rcases ih3 with h | ⟨l1, l2, hsplit, hlt, hstr⟩
        · refine Or.inr ⟨[], rest, ?_, ?_, by simp⟩
          · rw [h]; rfl
          · rw [h]; exact hc
        · refine Or.inr ⟨p :: l1, l2, by rw [List.cons_append, ← hsplit], hlt.trans hc, ?_⟩
          intro q hq
          rcases List.mem_cons.mp hq with h | h
          · rw [h]; exact hlt
          · exact hstr q h
    · have hred : minByAbsDiff f best (p :: rest) = minByAbsDiff f best rest := by
        simp [minByAbsDiff, hc]
      obtain ⟨ih1, ih2, ih3⟩ := ih best
      rw [hred]
      have hbp : |f - best.2| ≤ |f - p.2| := not_lt.mp hc
      refine ⟨ih1, ?_, ?_⟩
      · intro q hq
        rcases List.mem_cons.mp hq with h | h
        · rw [h]; exact ih1.trans hbp
        · exact ih2 q h
      · rcases ih3 with h | ⟨l1, l2, hsplit, hlt, hstr⟩
        · exact Or.inl h
        · refine Or.inr ⟨p :: l1, l2, by rw [List.cons_append, ← hsplit], hlt, ?_⟩
          intro q hq
          rcases List.mem_cons.mp hq with h | h
          · rw [h]; exact hlt.trans_le hbp
          · exact hstr q h

/-- Claim C1, counterexample: the concrete engine with a pass-through
section and seed `[(0,0)]` is fed two copies of the block `[1,0,1,0]`
(each resolving to note High E), then stopped and started; on the single
subsequent block `[1,0,1,0]` the restarted engine emits a confirmed
reading (the debounce counter persisted at 2 across the boundary and
reaches 3), while a freshly constructed engine fed the same block emits
nothing, refuting restart idempotence as claimed. -/
theorem restart_differs_from_fresh_counterexample :
    (runBlocks [⟨1, 0, 0, 0, 0⟩] [((0 : ℚ), (0 : ℚ))] true 44100
        (restart [(0, 0)]
          (runBlocks [⟨1, 0, 0, 0, 0⟩] [((0 : ℚ), (0 : ℚ))] true 44100 (initState [(0, 0)])
            [[1, 0, 1, 0], [1, 0, 1, 0]]).1)
        [[1, 0, 1, 0]]).2
    ≠ (runBlocks [⟨1, 0, 0, 0, 0⟩] [((0 : ℚ), (0 : ℚ))] true 44100 (initState [(0, 0)])
        [[1, 0, 1, 0]]).2 := by
  have h0 := pollBlock_eval_empty_history none 0
  have h1 := pollBlock_eval_one_history (some ("High E")) 1
  have h2 := pollBlock_eval_empty_history (some ("High E")) 2
  simp only [gateConfirm, note_confirm_threshold] at h0 h1 h2
  norm_num at h0 h1 h2
  simp [runBlocks, initState, restart, startSession, stopSession, h0, h1, h2]

/-- Claim C1, amended: a stop/start boundary resets the filter continuity
state to the steady-state seed and clears the frequency history, but
preserves the stability candidate and count; the restarted engine
coincides with a fresh one exactly when the gate state was already empty. -/
theorem restart_resets_filter_and_history_only (zi0 : Zi) (s : TunerState) :
    restart zi0 s = ⟨zi0, [], s.last_note, s.note_counter⟩
    ∧ (s.last_note = none → s.note_counter = 0 → restart zi0 s = initState zi0) := by
  refine ⟨rfl, fun h1 h2 => ?_⟩
  simp [restart, startSession, stopSession, initState, h1, h2]

/-- Witness for the amended C1 theorem at a concrete dirty state with an
empty gate. -/
theorem restart_resets_filter_and_history_only_witness :
    restart [((0 : ℚ), (0 : ℚ))] ⟨[((1 : ℚ), (2 : ℚ))], [5], none, 0⟩ = initState [(0, 0)] :=
  (restart_resets_filter_and_history_only [(0, 0)] ⟨[(1, 2)], [5], none, 0⟩).2 rfl rfl

/-- Claim C2, counterexample: with the section `b = [1,1,0]`, `a = [1,0,0]`
and seed `[(0,0)]`, a first call on block `[2,0,0,2]` leaves the carried
state `[(2,0)]`; the second call on block `[2,0,0,0]` (first sample 2)
produces output `[6,2,0,0]`, whereas filtering with the carried state
passed unscaled would produce `[4,2,0,0]` — the code scales the carried
state by the first sample of the block on every call, not only at session
start. -/
theorem filter_state_rescaled_counterexample :
    (filterStep [⟨1, 1, 0, 0, 0⟩] [((0 : ℚ), (0 : ℚ))] true
        ((filterStep [⟨1, 1, 0, 0, 0⟩] [(0, 0)] true [(0, 0)] [2, 0, 0, 2]).2)
        [2, 0, 0, 0]).1
    ≠ (sosfilt [⟨1, 1, 0, 0, 0⟩]
        ((filterStep [⟨1, 1, 0, 0, 0⟩] [(0, 0)] true [(0, 0)] [2, 0, 0, 2]).2)
        [2, 0, 0, 0]).1 := by
  norm_num [filterStep, sosfilt, sosSectionFilt, ziScale]

/-- Claim C2, amended: on every successful call the continuity state passed
to `sosfilt` is the carried state scaled elementwise by the first sample of
the block (`zi=self.zi * arr[0]`); the carried state is used unscaled
exactly when that first sample is 1. -/
theorem filter_state_scaled_every_call (sos : List Sos) (zi0 zi : Zi) (arr : List ℚ) :
    filterStep sos zi0 true zi arr = sosfilt sos (ziScale zi (arr.headD 0)) arr
    ∧ (arr.headD 0 = 1 → filterStep sos zi0 true zi arr = sosfilt sos zi arr) := by
  have hz : ziScale zi 1 = zi := by simp [ziScale]
  refine ⟨rfl, fun h1 => ?_⟩
  rw [show filterStep sos zi0 true zi arr = sosfilt sos (ziScale zi (arr.headD 0)) arr from rfl,
    h1, hz]

/-- Witness for the amended C2 theorem on a block whose first sample is 1. -/
theorem filter_state_scaled_every_call_witness :
    ([(1 : ℚ), 0].headD 0 = 1)
    ∧ filterStep [⟨1, 0, 0, 0, 0⟩] [((0 : ℚ), (0 : ℚ))] true [((2 : ℚ), (3 : ℚ))] [1, 0]
        = sosfilt [⟨1, 0, 0, 0, 0⟩] [((2 : ℚ), (3 : ℚ))] [1, 0] :=
  ⟨rfl, (filter_state_scaled_every_call [⟨1, 0, 0, 0, 0⟩] [(0, 0)] [(2, 3)] [1, 0]).2 rfl⟩

/-- Claim C3, counterexample: with history `[100]` and a none detection
(encoded 0), the tracker leaves the history unchanged but returns 0, not
the mean 100 of the current nonempty history as the claim states. -/
theorem tracker_none_returns_zero_counterexample :
    freqTrackerUpdate [100] 0 = ([100], 0)
    ∧ mean [100] = 100
    ∧ (freqTrackerUpdate [100] 0).2 ≠ mean [100] := by
  norm_num [freqTrackerUpdate, mean]

/-- Claim C3, amended: on a none detection (encoded 0) the frequency
history is left unchanged and the returned smoothed frequency is 0,
regardless of the history contents. -/
theorem tracker_none_keeps_history_returns_zero (hist : List ℚ) :
    freqTrackerUpdate hist 0 = (hist, 0) :=
  freqTrackerUpdate_none hist

/-- Claim C4: whenever the first difference of the non-negative-lag
autocorrelation of the mean-removed block has no strictly positive entry,
`detect_frequency_autocorr` does not return none — it raises an uncaught
`IndexError` (`np.where(d > 0)[0][0]` indexes an empty array), so its
evaluation is not total as the claim states. -/
theorem detect_no_rising_edge_raises (x : List ℚ) (fs : ℚ)
    (h : firstPosIdx (diffList (autocorr (centered x))) = none) :
    detect_frequency_autocorr x fs = DetectOut.err := by
  unfold detect_frequency_autocorr
  rw [h]

/-- Witness for C4 at the all-zero block. -/
theorem detect_no_rising_edge_raises_witness :
    firstPosIdx (diffList (autocorr (centered [0, 0, 0, 0]))) = none
    ∧ detect_frequency_autocorr [0, 0, 0, 0] 44100 = DetectOut.err := by
  have h : firstPosIdx (diffList (autocorr (centered [0, 0, 0, 0]))) = none := by
    norm_num [centered, mean, autocorr, diffList, firstPosIdx, List.range_succ]
  exact ⟨h, detect_no_rising_edge_raises [0, 0, 0, 0] 44100 h⟩

/-- Claim C5: when the first difference of the autocorrelation has a first
strictly positive entry at index `start`, the estimator returns
`fs / peak_lag` where `peak_lag` is the index of the first maximum of the
autocorrelation at or after `start`, and it returns the none encoding 0
exactly when `peak_lag = 0`. -/
theorem detect_peak_formula (x : List ℚ) (fs : ℚ) (start : ℕ) (hfs : 0 < fs)
    (h : firstPosIdx (diffList (autocorr (centered x))) = some start) :
    detect_frequency_autocorr x fs =
      (if argmax ((autocorr (centered x)).drop start) + start = 0 then DetectOut.val 0
       else DetectOut.val
         (fs / ((argmax ((autocorr (centered x)).drop start) + start : ℕ) : ℚ)))
    ∧ (detect_frequency_autocorr x fs = DetectOut.val 0
        ↔ argmax ((autocorr (centered x)).drop start) + start = 0) := by
  have hD : detect_frequency_autocorr x fs =
      (if argmax ((autocorr (centered x)).drop start) + start = 0 then DetectOut.val 0
       else DetectOut.val
         (fs / ((argmax ((autocorr (centered x)).drop start) + start : ℕ) : ℚ))) := by
    unfold detect_frequency_autocorr
    rw [h]
  refine ⟨hD, ?_⟩
  rw [hD]
  by_cases hp : argmax ((autocorr (centered x)).drop start) + start = 0
  · simp [hp]
  · rw [if_neg hp]
    simp only [DetectOut.val.injEq]
    constructor
    · intro h0
      have hpq : ((argmax ((autocorr (centered x)).drop start) + start : ℕ) : ℚ) ≠ 0 :=
        Nat.cast_ne_zero.mpr hp
      exact absurd h0 (div_ne_zero (ne_of_gt hfs) hpq)
    · intro h0
      exact absurd h0 hp

/-- Witness for C5 at the block `[1,0,1,0]`, whose rising edge is at lag 1
and whose peak lag is 2. -/
theorem detect_peak_formula_witness :
    (0 : ℚ) < 44100
    ∧ firstPosIdx (diffList (autocorr (centered [1, 0, 1, 0]))) = some 1
    ∧ (detect_frequency_autocorr [1, 0, 1, 0] 44100 =
        (if argmax ((autocorr (centered [1, 0, 1, 0])).drop 1) + 1 = 0 then DetectOut.val 0
         else DetectOut.val
           (44100 / ((argmax ((autocorr (centered [1, 0, 1, 0])).drop 1) + 1 : ℕ) : ℚ)))
      ∧ (detect_frequency_autocorr [1, 0, 1, 0] 44100 = DetectOut.val 0
          ↔ argmax ((autocorr (centered [1, 0, 1, 0])).drop 1) + 1 = 0)) := by
  have h1 : firstPosIdx (diffList (autocorr (centered [1, 0, 1, 0]))) = some 1 := by
    norm_num [centered, mean, autocorr, diffList, firstPosIdx, List.range_succ]
  exact ⟨by norm_num, h1, detect_peak_formula [1, 0, 1, 0] 44100 1 (by norm_num) h1⟩

/-- Claim C6: the stability gate increments the count on a matching
candidate and resets to 1 on a change, returns true exactly when the count
has reached the threshold 3, keeps returning true while the same candidate
persists, and on the sequence A,A,B,B,B from a fresh gate emits
false,false,false,false,true. -/
theorem stability_gate_behavior :
    (∀ (s : GateState) (c : String),
        (gateConfirm s c).1 =
          (if some c = s.last_note
           then (⟨s.last_note, s.note_counter + 1⟩ : GateState)
           else ⟨some c, 1⟩)
      ∧ ((gateConfirm s c).2 = true ↔ note_confirm_threshold ≤ (gateConfirm s c).1.note_counter))
    ∧ (∀ (s : GateState) (c : String),
        (gateConfirm s c).2 = true → (gateConfirm (gateConfirm s c).1 c).2 = true)
    ∧ (runGate ⟨none, 0⟩ ["A", "A", "B", "B", "B"]).2 = [false, false, false, false, true] := by
  refine ⟨fun s c => ⟨rfl, by simp [gateConfirm]⟩, fun s c h => ?_, by decide⟩
  by_cases hc : some c = s.last_note
  · simp [gateConfirm, hc, note_confirm_threshold] at h ⊢
    omega
  · simp [gateConfirm, hc, note_confirm_threshold] at h

/-- Witness for C6: once confirmed at count 3, the same candidate stays
confirmed on the next block. -/
theorem stability_gate_behavior_witness :
    (gateConfirm ⟨some ("A"), 2⟩ ("A")).2 = true
    ∧ (gateConfirm (gateConfirm ⟨some ("A"), 2⟩ ("A")).1 ("A")).2 = true :=
  ⟨by decide, stability_gate_behavior.2.1 ⟨some ("A"), 2⟩ ("A") (by decide)⟩

/-- Claim C7: a block whose peak absolute sample is below the silence
threshold 0.02 leaves the whole per-session state (filter continuity
state, frequency history, stability candidate and count) unchanged and
emits no reading. -/
theorem silence_gate_frame (sos : List Sos) (zi0 : Zi) (fOk : Bool) (fs : ℚ)
    (s : TunerState) (block : List ℚ) (hne : block ≠ [])
    (hq : peakAbs block < silence_threshold) :
    pollBlock sos zi0 fOk fs s block = PollOut.done s none := by
  unfold pollBlock
  rw [if_pos hq]

/-- Witness for C7 at a block with peak 0.01. -/
theorem silence_gate_frame_witness :
    ([1/100, 0] : List ℚ) ≠ []
    ∧ peakAbs [1/100, 0] < silence_threshold
    ∧ pollBlock [⟨1, 0, 0, 0, 0⟩] [(0, 0)] true 44100 (initState [(0, 0)]) [1/100, 0]
        = PollOut.done (initState [(0, 0)]) none := by
  have h1 : |(1 : ℚ)/100| = 1/100 := abs_of_nonneg (by norm_num)
  have hq : peakAbs [1/100, 0] < silence_threshold := by
    norm_num [peakAbs, silence_threshold, max_def, h1]
  exact ⟨by simp, hq,
    silence_gate_frame [⟨1, 0, 0, 0, 0⟩] [(0, 0)] true 44100 (initState [(0, 0)]) [1/100, 0]
      (by simp) hq⟩

/-- Claim C8: for every strictly positive frequency the resolver returns
the reference note minimising the absolute linear frequency difference,
with ties broken by table order (the result is the first minimiser in
`STRINGS`); the deviation is `1200 * log2(f / target) / 10`, positive for
sharp and negative for flat; concretely 110 Hz resolves to A with
deviation 0 and the deviation of 220 Hz against 110 Hz is 120. -/
theorem note_resolver_nearest (f : ℚ) (hf : 0 < f) :
    (∃ l1 l2, STRINGS = l1 ++ freq_to_string f :: l2
      ∧ ∀ p ∈ l1, |f - (freq_to_string f).2| < |f - p.2|)
    ∧ (∀ p ∈ STRINGS, |f - (freq_to_string f).2| ≤ |f - p.2|)
    ∧ (∀ g t : ℝ, cents_diff g t = 1200 * Real.logb 2 (g / t) / 10)
    ∧ freq_to_string 110 = ("A", 110)
    ∧ cents_diff 110 110 = 0
    ∧ cents_diff 220 110 = 120
    ∧ (∀ g t : ℝ, 0 < t → t < g → 0 < cents_diff g t)
    ∧ (∀ g t : ℝ, 0 < g → g < t → cents_diff g t < 0) := by
  have hfs : freq_to_string f = minByAbsDiff f ("Low E", 8241/100) STRINGS.tail := rfl
  have hSTR : STRINGS = ("Low E", (8241/100 : ℚ)) :: STRINGS.tail := rfl
  obtain ⟨h1, h2, h3⟩ := minByAbsDiff_spec f STRINGS.tail ("Low E", 8241/100)
  refine ⟨?_, ?_, fun g t => rfl, freq_to_string_eval_110, ?_, ?_, ?_, ?_⟩
  · rcases h3 with h | ⟨l1, l2, hsplit, hlt, hstr⟩
    · refine ⟨[], STRINGS.tail, ?_, by simp⟩
      rw [List.nil_append, hfs, h]
      exact hSTR
    · refine ⟨("Low E", (8241/100 : ℚ)) :: l1, l2, ?_, ?_⟩
      · rw [List.cons_append, hfs, ← hsplit]
        exact hSTR
      · intro q hq
        rcases List.mem_cons.mp hq with h | h
        · rw [h, hfs]; exact hlt
        · rw [hfs]; exact hstr q h
  · intro q hq
    rw [hSTR] at hq
    rcases List.mem_cons.mp hq with h | h
    · rw [h, hfs]; exact h1
    · rw [hfs]; exact h2 q h
  · rw [cents_diff]
    norm_num
  · rw [cents_diff]
    have h2 : (220 : ℝ) / 110 = 2 := by norm_num
    rw [h2, Real.logb_self_eq_one (by norm_num : (1 : ℝ) < 2)]
    norm_num
  · intro g t ht hg
    have hl : 0 < Real.logb 2 (g / t) :=
      Real.logb_pos (by norm_num) ((one_lt_div ht).mpr hg)
    rw [cents_diff]
    linarith
  · intro g t hg ht
    have hl : Real.logb 2 (g / t) < 0 :=
      Real.logb_neg (by norm_num) (div_pos hg (hg.trans ht)) ((div_lt_one (hg.trans ht)).mpr ht)
    rw [cents_diff]
    linarith

/-- Witness for C8: instantiation at 110 Hz, which resolves exactly to the
reference note A. -/
theorem note_resolver_nearest_witness :
    (0 : ℚ) < 110 ∧ freq_to_string 110 = ("A", 110) :=
  ⟨by norm_num, (note_resolver_nearest 110 (by norm_num)).2.2.2.1⟩

/-- Claim C9: when the stateful filtering step fails, the code filters the
same block statelessly (zero initial conditions), re-seeds the continuity
state as the steady-state seed scaled by the last output sample, and the
failure never surfaces: the poll step still returns normally whenever the
pitch detector does, with the re-seeded state stored. -/
theorem filter_fallback_recovery (sos : List Sos) (zi0 : Zi) :
    (∀ (zi : Zi) (arr : List ℚ),
      filterStep sos zi0 false zi arr =
        ((sosfilt sos (zeroZi sos) arr).1,
          ziScale zi0 (((sosfilt sos (zeroZi sos) arr).1).getLastD 0)))
    ∧ ∀ (fs : ℚ) (s : TunerState) (block : List ℚ),
        ¬ peakAbs block < silence_threshold →
        ∀ freq,
          detect_frequency_autocorr ((sosfilt sos (zeroZi sos) (normalizeBlock block)).1) fs
            = DetectOut.val freq →
          ∃ s2 out, pollBlock sos zi0 false fs s block = PollOut.done s2 out
            ∧ s2.zi = ziScale zi0
                (((sosfilt sos (zeroZi sos) (normalizeBlock block)).1).getLastD 0) := by
  constructor
  · intro zi arr
    rfl
  · intro fs s block hpk freq hdet
    rw [pollBlock, if_neg hpk]
    simp only [filterStep, Bool.false_eq_true, if_false, afterFilter, hdet]
    exact ⟨_, _, rfl, rfl⟩

/-- Witness for C9 on the test block with the pass-through section. -/
theorem filter_fallback_recovery_witness :
    ¬ peakAbs [1, 0, 1, 0] < silence_threshold
    ∧ detect_frequency_autocorr
        ((sosfilt [⟨1, 0, 0, 0, 0⟩] (zeroZi [⟨1, 0, 0, 0, 0⟩]) (normalizeBlock [1, 0, 1, 0])).1)
        44100 = DetectOut.val 22050
    ∧ ∃ s2 out,
        pollBlock [⟨1, 0, 0, 0, 0⟩] [(0, 0)] false 44100 (initState [(0, 0)]) [1, 0, 1, 0]
          = PollOut.done s2 out
        ∧ s2.zi = ziScale [(0, 0)]
            (((sosfilt [⟨1, 0, 0, 0, 0⟩] (zeroZi [⟨1, 0, 0, 0, 0⟩])
                (normalizeBlock [1, 0, 1, 0])).1).getLastD 0) :=
  ⟨peakAbs_block_not_silent, by rw [sosfilt_fallback_eval]; exact detect_eval_square,
    (filter_fallback_recovery [⟨1, 0, 0, 0, 0⟩] [(0, 0)]).2 44100 (initState [(0, 0)])
      [1, 0, 1, 0] peakAbs_block_not_silent 22050
      (by rw [sosfilt_fallback_eval]; exact detect_eval_square)⟩

/-- Claim C10: when a processed non-silent block yields no detected pitch
(detected frequency 0), the smoothed frequency is 0, which the resolver
maps to the linearly nearest note Low E; that candidate is fed to the
stability gate, three consecutive such blocks from a fresh gate confirm
and emit the reading (Low E, 0 Hz), and the displayed deviation is forced
to 0. -/
theorem no_pitch_resolves_low_e :
    freq_to_string 0 = ("Low E", 8241/100)
    ∧ (∀ (hist : List ℚ) (g : GateState),
        trackResolveGate hist g 0 =
          (hist, (gateConfirm g ("Low E")).1,
            if (gateConfirm g ("Low E")).2 then some (("Low E"), (0 : ℚ)) else none))
    ∧ (∀ hist : List ℚ,
        (trackResolveGate hist ⟨none, 0⟩ 0).2.2 = none
        ∧ (trackResolveGate hist (trackResolveGate hist ⟨none, 0⟩ 0).2.1 0).2.2 = none
        ∧ (trackResolveGate hist
            (trackResolveGate hist (trackResolveGate hist ⟨none, 0⟩ 0).2.1 0).2.1 0).2.2
            = some (("Low E"), (0 : ℚ)))
    ∧ (∀ t : ℚ, displayDiff 0 t = 0) := by
  refine ⟨freq_to_string_eval_zero, trackResolveGate_none, ?_, ?_⟩
  · intro hist
    refine ⟨?_, ?_, ?_⟩ <;> simp only [trackResolveGate_none] <;> decide
  · intro t
    simp [displayDiff]

end Tuner
